import Mathlib

/-!
Shallow embedding of the tet-rs falling-block engine core
(src/utils.rs, src/piece.rs, src/grid.rs, src/gamestate.rs).

Rust i32 values are modelled as Int (all arithmetic here stays far from
i32 overflow), Rust f32 pivot arithmetic is modelled exactly over Rat
(every intermediate value is a small multiple of 1/2, hence exact in f32),
and `as i32` casts are modelled by truncation toward zero.  Panic sites of
the source (asserts, unwraps, `unreachable!`) are modelled by explicit
default values and are marked by comments; no modelled theorem depends on
such a default, and the claims' hypotheses keep evaluation away from them.
The bag generator `gen_piece_bag` is not part of src/ (only its callers
are); wherever the source calls it, the model takes the freshly generated
bag as an explicit argument.
-/

set_option maxRecDepth 100000

namespace Tetrs

/-- PieceKind from src/piece.rs: the seven tetromino kinds plus the empty
sentinel stored in grid cells. -/
inductive PieceKind where
  | I | J | L | O | S | T | Z
  | none
deriving DecidableEq, Fintype

/-- Rotation from src/utils.rs: four discrete states. -/
inductive Rotation where
  | rot0 | rot90 | rot180 | rot270
deriving DecidableEq, Fintype

/-- Source `rotation as i32` (discriminant values 0..3). -/
def Rotation.toInt : Rotation → Int
  | .rot0 => 0
  | .rot90 => 1
  | .rot180 => 2
  | .rot270 => 3

/-- Source `rotation as usize` used for indexing `rotated_pieces`. -/
def Rotation.toNat : Rotation → Nat
  | .rot0 => 0
  | .rot90 => 1
  | .rot180 => 2
  | .rot270 => 3

/-- Source `impl TryFrom<i32> for Rotation` from src/utils.rs. -/
def Rotation.tryFrom : Int → Option Rotation
  | 0 => some .rot0
  | 1 => some .rot90
  | 2 => some .rot180
  | 3 => some .rot270
  | _ => Option.none

/-- Source `impl Add for Rotation` from src/utils.rs:
`try_from((self as i32 + rhs as i32).rem_euclid(4)).unwrap()`.
`rem_euclid` is `Int.emod`; the unwrap is modelled by `getD .rot0`
(theorem c9 proves the `tryFrom` is always `some`). -/
def radd (a b : Rotation) : Rotation :=
  (Rotation.tryFrom (Int.emod (a.toInt + b.toInt) 4)).getD .rot0

/-- Direction from src/utils.rs. -/
inductive Direction where
  | down | left | right
deriving DecidableEq

/-- Button from src/controls.rs. -/
inductive Button where
  | moveDown | moveLeft | moveRight | rotateClockwise | drop | quit
deriving DecidableEq

/-- Source `type PieceMap = [(i32, i32); 4]` from src/piece.rs (a 4-cell shape;
modelled as a list, always of length 4 in source-produced values). -/
abbrev PieceMap := List (Int × Int)

def PIECE_I : PieceMap := [(0, 1), (1, 1), (2, 1), (3, 1)]
def PIECE_J : PieceMap := [(0, 1), (1, 1), (2, 1), (2, 0)]
def PIECE_L : PieceMap := [(0, 0), (0, 1), (1, 1), (2, 1)]
def PIECE_O : PieceMap := [(0, 0), (1, 0), (0, 1), (1, 1)]
def PIECE_S : PieceMap := [(0, 0), (1, 0), (1, 1), (2, 1)]
def PIECE_T : PieceMap := [(0, 1), (1, 1), (2, 1), (1, 2)]
def PIECE_Z : PieceMap := [(1, 0), (2, 0), (0, 1), (1, 1)]

/-- Source `PieceDimensions::x_min`: `min_by` comparing x components; Rust
`min_by` keeps the first minimum, modelled by the strict-less fold. -/
def xMinOf (m : PieceMap) : Int :=
  match m with
  | [] => 0
  | a :: rest => (rest.foldl (fun acc b => if b.1 < acc.1 then b else acc) a).1

/-- Source `PieceDimensions::x_max`: `max_by` comparing x components; Rust
`max_by` keeps the last maximum (replace unless strictly greater). -/
def xMaxOf (m : PieceMap) : Int :=
  match m with
  | [] => 0
  | a :: rest => (rest.foldl (fun acc b => if b.1 < acc.1 then acc else b) a).1

/-- Source `PieceDimensions::y_min`: `min_by` comparing y components. -/
def yMinOf (m : PieceMap) : Int :=
  match m with
  | [] => 0
  | a :: rest => (rest.foldl (fun acc b => if b.2 < acc.2 then b else acc) a).2

/-- Source `PieceDimensions::y_max`: the source comparator destructures the two
arguments as `(y1, _)` and `(_, y2)`, i.e. it compares the x component of
the accumulated element against the y component of the candidate; this is
modelled verbatim (for the seven canonical maps the result coincides with
the true y maximum). -/
def yMaxOf (m : PieceMap) : Int :=
  match m with
  | [] => 0
  | a :: rest => (rest.foldl (fun acc b => if b.2 < acc.1 then acc else b) a).2

/-- Source `PieceDimensions::get_width`. -/
def getWidth (m : PieceMap) : Int := xMaxOf m - xMinOf m + 1

/-- Source `PieceDimensions::get_height`. -/
def getHeight (m : PieceMap) : Int := yMaxOf m - yMinOf m + 1

/-- Minimum of a nonempty list of y values,
with 0 for the empty list (the source unwraps there: a column between
`x_min` and `x_max` with no cell would panic, which never happens for
source-produced maps). -/
def minYList : List Int → Int
  | [] => 0
  | y :: ys => ys.foldl min y

/-- Source `PieceDimensions::get_skirt`: for each column from `x_min` to `x_max`,
the minimum y among cells in that column. -/
def getSkirt (m : PieceMap) : List Int :=
  (List.range (getWidth m).toNat).map (fun i =>
    minYList ((m.filter (fun c => c.1 = xMinOf m + i)).map Prod.snd))

/-- Exact rational addition written out over `mkRat` (the library's own
rational addition is opaque to kernel evaluation; this definition is the
textbook fraction sum and evaluates). -/
def ratAdd (a b : Rat) : Rat :=
  mkRat (a.num * (b.den : Int) + b.num * (a.den : Int)) (a.den * b.den)

/-- Exact rational subtraction. -/
def ratSub (a b : Rat) : Rat := ratAdd a (Rat.neg b)

/-- Truncation toward zero of a rational, the semantics of Rust's
`as i32` cast from f32: the numerator and positive denominator are
divided after splitting on the sign, so both divisions round down on
nonnegative operands, i.e. toward zero overall. -/
def ratTrunc (q : Rat) : Int :=
  if q.num < 0 then -((-q.num) / (q.den : Int)) else q.num / (q.den : Int)

/-- One step of `get_rotated_piece_maps`: translate pivot-relative, apply
`(x, y) -> (y, -x)`, then translate back; the source adds `origin.0` to
both components (for every kind the two pivot components are equal).
The source computes with f32; every value here is a small multiple of
one half, on which f32 arithmetic is exact, so exact rational arithmetic
is a faithful model. -/
def rotateMapOnce (origin : Rat × Rat) (m : PieceMap) : PieceMap :=
  m.map (fun c =>
    let xr : Rat := ratSub (mkRat c.1 1) origin.1
    let yr : Rat := ratSub (mkRat c.2 1) origin.2
    (ratTrunc (ratAdd yr origin.1), ratTrunc (ratAdd (Rat.neg xr) origin.1)))

/-- Source `PieceDimensions::get_rotated_piece_maps`: the four cached rotation
states, each obtained from the previous one. -/
def getRotatedPieceMaps (origin : Rat × Rat) (m : PieceMap) : List PieceMap :=
  [m, rotateMapOnce origin m,
   rotateMapOnce origin (rotateMapOnce origin m),
   rotateMapOnce origin (rotateMapOnce origin (rotateMapOnce origin m))]

/-- PieceDimensions from src/piece.rs. -/
structure PieceDimensions where
  pieceMap : PieceMap
  width : Int
  height : Int
  skirt : List Int
deriving DecidableEq

/-- Source `PieceDimensions::new`. -/
def PieceDimensions.new (m : PieceMap) : PieceDimensions :=
  { pieceMap := m, width := getWidth m, height := getHeight m, skirt := getSkirt m }

/-- GridPosition from src/piece.rs. -/
structure GridPosition where
  x : Int
  y : Int
deriving DecidableEq

/-- Piece from src/piece.rs. -/
structure Piece where
  kind : PieceKind
  pieceDimensions : PieceDimensions
  rotation : Rotation
  rotatedPieces : List PieceMap
  position : GridPosition
deriving DecidableEq

/-- Canonical map and pivot per kind, from the match in `Piece::new`.
The `PieceKind.none` case panics in the source (`Invalid piece type`);
it is modelled by a degenerate map never reached by any theorem. -/
def kindMapOrigin : PieceKind → PieceMap × (Rat × Rat)
  | .I => (PIECE_I, (mkRat 3 2, mkRat 3 2))
  | .J => (PIECE_J, (mkRat 1 1, mkRat 1 1))
  | .L => (PIECE_L, (mkRat 1 1, mkRat 1 1))
  | .O => (PIECE_O, (mkRat 1 2, mkRat 1 2))
  | .S => (PIECE_S, (mkRat 1 1, mkRat 1 1))
  | .T => (PIECE_T, (mkRat 1 1, mkRat 1 1))
  | .Z => (PIECE_Z, (mkRat 1 1, mkRat 1 1))
  | .none => ([(0, 0), (0, 0), (0, 0), (0, 0)], (mkRat 0 1, mkRat 0 1))

def GRID_COLUMNS : Int := 10
def GRID_ROWS : Int := 24
def GRID_VISIBLE_ROWS : Int := 20
def gridColumnsN : Nat := 10
def gridRowsN : Nat := 24

/-- Source `Piece::new`: spawn a piece of the given kind horizontally centered
(`GRID_COLUMNS/2 - width/2`) with `ypos = 23 - height - y_min`. -/
def pieceNew (kind : PieceKind) : Piece :=
  let d := PieceDimensions.new (kindMapOrigin kind).1
  let xpos := GRID_COLUMNS / 2 - d.width / 2
  let ypos := 23 - d.height - yMinOf d.pieceMap
  { kind := kind,
    rotatedPieces := getRotatedPieceMaps (kindMapOrigin kind).2 d.pieceMap,
    pieceDimensions := d,
    rotation := .rot0,
    position := { x := xpos, y := ypos } }

/-- Source `Piece::rotate`: advance the rotation state and swap in the cached
map for the new state (`rotated_pieces[self.rotation as usize]`). -/
def pieceRotate (p : Piece) (rot : Rotation) : Piece :=
  let r := radd p.rotation rot
  { p with
    rotation := r,
    pieceDimensions := PieceDimensions.new (p.rotatedPieces.getD r.toNat []) }

/-- Source `Piece::move_piece`. -/
def movePiece (dir : Direction) (p : Piece) : Piece :=
  match dir with
  | .down => { p with position := { p.position with y := p.position.y - 1 } }
  | .left => { p with position := { p.position with x := p.position.x - 1 } }
  | .right => { p with position := { p.position with x := p.position.x + 1 } }

/-- Source `Piece::y_min`: lowest occupied absolute row of the piece. -/
def pieceYMin (p : Piece) : Int := p.position.y + yMinOf p.pieceDimensions.pieceMap

/-- Absolute grid cells of the active piece (its map translated by its
position), the cell set used by `freeze_piece` and the validity checks. -/
def pieceAbsCells (p : Piece) : List (Int × Int) :=
  p.pieceDimensions.pieceMap.map (fun c => (p.position.x + c.1, p.position.y + c.2))

/-- Grid from src/grid.rs: the fixed 24-row by 10-column cell matrix
(rows listed bottom row first, each row a list of 10 kinds). -/
structure Grid where
  gridMap : List (List PieceKind)
deriving DecidableEq

/-- Source `Grid::is_within_bounds`. -/
def isWithinBounds (x y : Int) : Bool :=
  0 ≤ x && x < GRID_COLUMNS && 0 ≤ y && y < GRID_ROWS

/-- Source `Grid::get_cell` (`grid_map[y][x]`).  The source asserts
`is_within_bounds`; the model returns the empty sentinel out of bounds,
and every modelled call site either checks the bounds first (as the
short-circuiting source does) or is only applied to in-bounds cells. -/
def gridGet (g : Grid) (x y : Int) : PieceKind :=
  if isWithinBounds x y then (g.gridMap.getD y.toNat []).getD x.toNat .none
  else .none

/-- Source `Grid::set_cell`: defensive no-op when out of bounds. -/
def setCell (g : Grid) (x y : Int) (kind : PieceKind) : Grid :=
  if isWithinBounds x y then
    { gridMap := g.gridMap.set y.toNat ((g.gridMap.getD y.toNat []).set x.toNat kind) }
  else g

/-- Source `Grid::new`: all cells empty. -/
def emptyGrid : Grid :=
  { gridMap := List.replicate gridRowsN (List.replicate gridColumnsN PieceKind.none) }

/-- Source `Grid::clear_row`: set every cell of the row to the empty sentinel
(the source asserts `row < GRID_ROWS`; callers pass in-range rows). -/
def clearRow (g : Grid) (row : Nat) : Grid :=
  (List.range gridColumnsN).foldl (fun g' col => setCell g' (col : Int) (row : Int) .none) g

/-- Source `Grid::widths`: per-row count of occupied cells. -/
def widths (g : Grid) : List Int :=
  (List.range gridRowsN).map (fun row =>
    ((List.range gridColumnsN).map (fun col =>
      if gridGet g (col : Int) (row : Int) = PieceKind.none then (0 : Int) else 1)).sum)

/-- Descending scan of one column: the `(0..below).rev()` iterator after
the `row >= GRID_ROWS` skip starts at `min(below, 24) - 1`; `heightsCol g
col n` checks rows `n-1, n-2, ...` and returns one past the first
occupied row, or 0. -/
def heightsCol (g : Grid) (col : Nat) : Nat → Int
  | 0 => 0
  | k + 1 => if gridGet g (col : Int) (k : Int) = PieceKind.none then heightsCol g col k
             else (k : Int) + 1

/-- Source `Grid::heights(below_row)`: for each column, one past the topmost
occupied row strictly below `below_row` (clamped to the grid), else 0. -/
def heights (g : Grid) (below : Int) : List Int :=
  (List.range gridColumnsN).map (fun col => heightsCol g col (min below GRID_ROWS).toNat)

/-- Source `Grid::overlaps`: some absolute cell of the piece is occupied.  The
source reads via the asserting `get_cell`; callers only pass freshly
spawned pieces, whose cells are in bounds. -/
def gridOverlaps (g : Grid) (p : Piece) : Bool :=
  (pieceAbsCells p).any (fun c => !(gridGet g c.1 c.2 = PieceKind.none))

/-- Total number of occupied cells of the grid (used to state the line
clear count property). -/
def countOccupied (g : Grid) : Nat :=
  ((List.range gridRowsN).map (fun row =>
    ((List.range gridColumnsN).map (fun col =>
      if gridGet g (col : Int) (row : Int) = PieceKind.none then 0 else 1)).sum)).sum

/-- GameState from src/gamestate.rs. -/
structure GameState where
  grid : Grid
  activePiece : Piece
  gameover : Bool
  currentPieceBag : List PieceKind
  nextPieceBag : List PieceKind
deriving DecidableEq

/-- Source `Vec::pop`: remove and return the last element. -/
def popBack (l : List PieceKind) : Option (PieceKind × List PieceKind) :=
  match l.getLast? with
  | Option.none => Option.none
  | some a => some (a, l.dropLast)

/-- The bag draw inside `freeze_piece`:
`current.pop().unwrap_or_else(|| { current = replace(next, gen_piece_bag()); current.pop().unwrap() })`.
The freshly generated bag is the explicit `fresh` argument (the source
calls `gen_piece_bag`, which lives outside src/).  Returns the drawn kind
and the new (current, next) bags.  When both bags are empty the source
unwrap panics; the model returns the empty sentinel, never reached by any
theorem. -/
def drawPiece (fresh : List PieceKind) (cur next : List PieceKind) :
    PieceKind × List PieceKind × List PieceKind :=
  match popBack cur with
  | some (k, cur') => (k, cur', next)
  | Option.none =>
    match popBack next with
    | some (k, cur') => (k, cur', fresh)
    | Option.none => (PieceKind.none, [], fresh)

/-- The cell-writing loop of `freeze_piece`: write every cell of the
piece map at its absolute position into the grid. -/
def writePiece (g : Grid) (p : Piece) : Grid :=
  p.pieceDimensions.pieceMap.foldl
    (fun g' c => setCell g' (p.position.x + c.1) (p.position.y + c.2) p.kind) g

/-- Source `GameState::freeze_piece` (with the `gen_piece_bag` result passed as
`fresh`): game over if the piece locked entirely within the hidden
buffer, otherwise write its cells, draw the next kind, and either spawn
the new piece or set game over if the spawn overlaps terrain. -/
def freezePiece (fresh : List PieceKind) (s : GameState) : GameState :=
  if GRID_VISIBLE_ROWS ≤ pieceYMin s.activePiece then { s with gameover := true }
  else
    let g' := writePiece s.grid s.activePiece
    let d := drawPiece fresh s.currentPieceBag s.nextPieceBag
    let np := pieceNew d.1
    if gridOverlaps g' np then
      { s with grid := g', currentPieceBag := d.2.1, nextPieceBag := d.2.2, gameover := true }
    else
      { s with grid := g', currentPieceBag := d.2.1, nextPieceBag := d.2.2, activePiece := np }

/-- The per-column landing clearance of `distance_to_drop` for column
index `w` of the piece: `skirt[w] + y - heights(skirt[w] + y)[x + w + xmin]`. -/
def colClearance (s : GameState) (w : Nat) : Int :=
  let y := s.activePiece.position.y
  let sk := s.activePiece.pieceDimensions.skirt.getD w 0
  sk + y - (heights s.grid (sk + y)).getD
    (s.activePiece.position.x + (w : Int) + xMinOf s.activePiece.pieceDimensions.pieceMap).toNat 0

/-- Whether column index `w` of the piece has its absolute x on the grid
(the filter of `distance_to_drop`). -/
def colInBounds (s : GameState) (w : Nat) : Bool :=
  let ax := s.activePiece.position.x + (w : Int) + xMinOf s.activePiece.pieceDimensions.pieceMap
  0 ≤ ax && ax < GRID_COLUMNS

/-- The list of clearances over the in-bounds columns, in column order. -/
def clearances (s : GameState) : List Int :=
  (((List.range s.activePiece.pieceDimensions.width.toNat).filter
    (fun w => colInBounds s w)).map (fun w => colClearance s w))

/-- Source `GameState::distance_to_drop`: minimum clearance over the in-bounds
columns.  The source unwraps the minimum (panicking if every column is
off-grid); the model returns 0 there, a case no theorem relies on. -/
def distanceToDrop (s : GameState) : Int :=
  (clearances s).min?.getD 0

/-- Source `GameState::apply_gravity`: lock when resting, else fall one cell. -/
def applyGravity (fresh : List PieceKind) (s : GameState) : GameState :=
  if distanceToDrop s = 0 then freezePiece fresh s
  else { s with activePiece := movePiece .down s.activePiece }

/-- Source `GameState::drop_piece`: hard drop, then lock. -/
def dropPiece (fresh : List PieceKind) (s : GameState) : GameState :=
  freezePiece fresh
    { s with activePiece :=
      { s.activePiece with position :=
        { s.activePiece.position with y := s.activePiece.position.y - distanceToDrop s } } }

/-- Source `GameState::is_valid_move`: every cell of the shape, translated by the
direction's unit delta, must be in bounds and unoccupied. -/
def isValidMove (s : GameState) (dir : Direction) : Bool :=
  let d : Int × Int := match dir with
    | .left => (-1, 0)
    | .right => (1, 0)
    | .down => (0, -1)
  s.activePiece.pieceDimensions.pieceMap.all (fun c =>
    let x := s.activePiece.position.x + c.1 + d.1
    let y := s.activePiece.position.y + c.2 + d.2
    isWithinBounds x y && gridGet s.grid x y = PieceKind.none)

/-- Source `GameState::try_move`: silent rejection on invalid moves. -/
def tryMove (s : GameState) (dir : Direction) : GameState :=
  if isValidMove s dir then { s with activePiece := movePiece dir s.activePiece } else s

/-- Source `GameState::is_valid_rotation`: the cached map of the target rotation
state, translated by the current position plus `offset`, must be fully in
bounds and unoccupied. -/
def isValidRotation (s : GameState) (rot : Rotation) (offset : Int × Int) : Bool :=
  (s.activePiece.rotatedPieces.getD (radd s.activePiece.rotation rot).toNat []).all (fun c =>
    let x := s.activePiece.position.x + c.1 + offset.1
    let y := s.activePiece.position.y + c.2 + offset.2
    isWithinBounds x y && gridGet s.grid x y = PieceKind.none)

/-- The kick-offset table of `try_rotate`, keyed by piece-kind class
(long bar vs all others) and the (from, to) rotation transition; `none`
models the `unreachable!()` arms (no table entry for that transition). -/
def offsetList (kind : PieceKind) (from_ to_ : Rotation) : Option (List (Int × Int)) :=
  match kind with
  | .I =>
    match from_, to_ with
    | .rot0, .rot90 => some [(-2, 0), (1, 0), (-2, -1), (1, 2)]
    | .rot90, .rot0 => some [(2, 0), (-1, 0), (2, 1), (-1, -2)]
    | .rot90, .rot180 => some [(-1, 0), (2, 0), (-1, 2), (2, -1)]
    | .rot180, .rot90 => some [(1, 0), (-2, 0), (1, -2), (-2, 1)]
    | .rot180, .rot270 => some [(2, 0), (-1, 0), (2, 1), (-1, -2)]
    | .rot270, .rot180 => some [(-2, 0), (1, 0), (-2, -1), (1, 2)]
    | .rot270, .rot0 => some [(1, 0), (-2, 0), (1, -2), (-2, 1)]
    | .rot0, .rot270 => some [(-1, 0), (2, 0), (-1, 2), (2, -1)]
    | _, _ => Option.none
  | _ =>
    match from_, to_ with
    | .rot0, .rot90 => some [(-1, 0), (-1, 1), (0, -2), (-1, -2)]
    | .rot90, .rot0 => some [(1, 0), (1, -1), (0, 2), (1, 2)]
    | .rot90, .rot180 => some [(1, 0), (1, -1), (0, 2), (1, 2)]
    | .rot180, .rot90 => some [(-1, 0), (-1, 1), (0, -2), (-1, -2)]
    | .rot180, .rot270 => some [(1, 0), (1, 1), (0, -2), (1, -2)]
    | .rot270, .rot180 => some [(-1, 0), (-1, -1), (0, 2), (-1, 2)]
    | .rot270, .rot0 => some [(-1, 0), (-1, -1), (0, 2), (-1, 2)]
    | .rot0, .rot270 => some [(1, 0), (1, 1), (0, -2), (1, -2)]
    | _, _ => Option.none

/-- Committing a kicked rotation: shift the position by the offset and
advance the rotation (the body of the successful loop iteration of
`try_rotate`). -/
def applyRot (s : GameState) (rot : Rotation) (o : Int × Int) : GameState :=
  let shifted : Piece :=
    { s.activePiece with position :=
      { x := s.activePiece.position.x + o.1, y := s.activePiece.position.y + o.2 } }
  { s with activePiece := pieceRotate shifted rot }

/-- The kick loop of `try_rotate`: try each offset in table order and
commit at the first valid one (`break`); state unchanged if none is. -/
def kickLoop (s : GameState) (rot : Rotation) : List (Int × Int) → GameState
  | [] => s
  | o :: rest =>
    if isValidRotation s rot o then applyRot s rot o else kickLoop s rot rest

/-- Source `GameState::try_rotate`: zero-offset test first, then the kick table.
The `Option.none` table case models the source's `unreachable!()` panic
(theorem c10 shows it is never taken for a 90-degree delta). -/
def tryRotate (s : GameState) (rot : Rotation) : GameState :=
  match offsetList s.activePiece.kind s.activePiece.rotation (radd s.activePiece.rotation rot) with
  | Option.none => s
  | some l =>
    if isValidRotation s rot (0, 0) then
      { s with activePiece := pieceRotate s.activePiece rot }
    else kickLoop s rot l

/-- One iteration of the marking pass of `clear_full_rows`, folded over
the rows in order: clear full rows in the working copy, count them, and
record the per-row drop amount (0 for rows being cleared, the running
count for the others).  `self.grid.widths()` is computed once up front,
as in the source. -/
def clearPass1 (g0 : Grid) : Grid × Int × List Int :=
  let ws := widths g0
  (List.range gridRowsN).foldl
    (fun acc row =>
      if ws.getD row 0 = GRID_COLUMNS then
        (clearRow acc.1 row, acc.2.1 + 1, acc.2.2 ++ [0])
      else (acc.1, acc.2.1, acc.2.2 ++ [acc.2.1]))
    (g0, 0, [])

/-- Source `GameState::clear_full_rows`: clear every full row in a copy, then
for every row with positive drop amount copy its old contents down by
that amount (reading from the original grid). -/
def clearFullRows (s : GameState) : GameState :=
  let p1 := clearPass1 s.grid
  let g2 := (List.range gridRowsN).foldl
    (fun g row =>
      let amt := p1.2.2.getD row 0
      if 0 < amt then
        (List.range gridColumnsN).foldl
          (fun g' col =>
            setCell g' (col : Int) ((row : Int) - amt) (gridGet s.grid (col : Int) (row : Int)))
          g
      else g)
    p1.1
  { s with grid := g2 }

/-- Source `GameState::on_update`. -/
def onUpdate (s : GameState) : GameState := clearFullRows s

/-- Source `GameState::on_button_pressed` (with the `gen_piece_bag` result used
by a possible lock passed as `fresh`). -/
def onButtonPressed (fresh : List PieceKind) (b : Button) (s : GameState) : GameState :=
  match b with
  | .quit => { s with gameover := true }
  | .moveDown => tryMove s .down
  | .moveLeft => tryMove s .left
  | .moveRight => tryMove s .right
  | .drop => dropPiece fresh s
  | .rotateClockwise => tryRotate s .rot90

/-- One public call, with the bag the ambient randomness would generate
on this call passed explicitly. -/
inductive Op where
  | gravity (fresh : List PieceKind)
  | button (fresh : List PieceKind) (b : Button)
  | update
deriving DecidableEq

def applyOp (s : GameState) : Op → GameState
  | .gravity fresh => applyGravity fresh s
  | .button fresh b => onButtonPressed fresh b s
  | .update => onUpdate s

def applyOps (s : GameState) (ops : List Op) : GameState :=
  ops.foldl applyOp s

/-- Source `GameState::default`: fresh grid, freshly spawned piece of a random
kind, two freshly generated bags; the three random results are the
explicit arguments. -/
def initState (k : PieceKind) (bag1 bag2 : List PieceKind) : GameState :=
  { grid := emptyGrid, activePiece := pieceNew k, gameover := false,
    currentPieceBag := bag1, nextPieceBag := bag2 }

/-- The full 7-kind list; `gen_piece_bag` (outside src/) returns a
permutation of it. -/
def allKinds : List PieceKind := [.I, .J, .L, .O, .S, .T, .Z]

/-- A run of `n` consecutive bag draws: the list of drawn kinds, with the
bag each draw's `gen_piece_bag` call would generate taken from `fs`. -/
def drawRun : Nat → List (List PieceKind) → List PieceKind → List PieceKind → List PieceKind
  | 0, _, _, _ => []
  | n + 1, fs, cur, next =>
    let d := drawPiece (fs.headD []) cur next
    d.1 :: drawRun n fs.tail d.2.1 d.2.2

/-- The grid of the real Rust program is a fixed 24-by-10 matrix; this
well-formedness predicate pins that shape on the list model. -/
def wfGrid (g : Grid) : Prop :=
  g.gridMap.length = gridRowsN ∧ ∀ r ∈ g.gridMap, r.length = gridColumnsN

instance (g : Grid) : Decidable (wfGrid g) := by
  unfold wfGrid
  infer_instance

/-- Modelled from the spec: `heights(belowRow)[col]` as the spec's own
parenthetical and scan description put it — one past the highest occupied
cell of the column strictly below `belowRow` (and on the grid), 0 if the
column is empty there.  Stated independently of the scanning code as a
maximum over the occupied rows. -/
def heightsSpecBelow (g : Grid) (below : Int) (col : Nat) : Int :=
  (((List.range gridRowsN).filter (fun (r : Nat) =>
    decide ((r : Int) < below) && decide (¬ gridGet g (col : Int) (r : Int) = PieceKind.none)))).foldr
    (fun (r : Nat) (acc : Int) => max ((r : Int) + 1) acc) 0

/-- Modelled from the claim's words: the same maximum but over occupied
cells at or below `belowRow` (inclusive).  Used only to exhibit that the
code does not satisfy this inclusive reading. -/
def heightsAtOrBelow (g : Grid) (below : Int) (col : Nat) : Int :=
  (((List.range gridRowsN).filter (fun (r : Nat) =>
    decide ((r : Int) ≤ below) && decide (¬ gridGet g (col : Int) (r : Int) = PieceKind.none)))).foldr
    (fun (r : Nat) (acc : Int) => max ((r : Int) + 1) acc) 0

/-- Grid with rows 0 and 1 completely full and one extra block at
(0, 22): the failing input for claim C3. -/
def c3Grid : Grid :=
  setCell ((List.range gridColumnsN).foldl
    (fun g c => setCell (setCell g (c : Int) 0 .I) (c : Int) 1 .I) emptyGrid) 0 22 .I

def c3State : GameState := { initState .I allKinds allKinds with grid := c3Grid }

/-- The operation sequence of claim C5's failing run: from a fresh game
whose first piece is the long bar and whose first bag is the permutation
[Z, J, L, T, S, O, I] (draws pop from the back: I, O, S, T, ...), lock two
long bars and a square to fill row 0, lock an S on top of them leaving an
overhang at (2, 2) over the hole (2, 1), tuck the T piece under that
overhang, then run the deferred line clear. -/
def c5Ops : List Op :=
  [.button allKinds .moveLeft, .button allKinds .moveLeft, .button allKinds .moveLeft,
   .button allKinds .drop,
   .button allKinds .moveRight, .button allKinds .drop,
   .button allKinds .moveRight, .button allKinds .moveRight, .button allKinds .moveRight,
   .button allKinds .moveRight, .button allKinds .drop,
   .button allKinds .moveLeft, .button allKinds .moveLeft, .button allKinds .moveLeft,
   .button allKinds .moveLeft, .button allKinds .drop,
   .button allKinds .moveLeft] ++
  List.replicate 20 (Op.gravity allKinds) ++
  [.button allKinds .moveLeft, .update]

def c5Final : GameState :=
  applyOps (initState .I [.Z, .J, .L, .T, .S, .O, .I] allKinds) c5Ops

/-- A game state with the game-over flag set (reachable by pressing Quit
in the fresh game): the counterexample input for claim C6. -/
def c6State : GameState :=
  onButtonPressed allKinds .quit (initState .I allKinds allKinds)

/-- Grid with a single occupied cell at (0, 5): the counterexample input
for claim C8. -/
def c8Grid : Grid := setCell emptyGrid 0 5 .I

/-- C10: for every current rotation state and either 90-degree delta, the
kick-offset table has an arm for the transition, so the `unreachable!()`
branch of `try_rotate` (the `Option.none` table result) is never taken;
a 180-degree delta has no arm; and `on_button_pressed` dispatches
RotateClockwise to `try_rotate` with exactly the +90-degree delta. -/
theorem c10_kick_table_total :
    (∀ (k : PieceKind) (r : Rotation),
      (offsetList k r (radd r .rot90)).isSome = true ∧
      (offsetList k r (radd r .rot270)).isSome = true ∧
      offsetList k r (radd r .rot180) = Option.none) ∧
    (∀ (fresh : List PieceKind) (s : GameState),
      onButtonPressed fresh .rotateClockwise s = tryRotate s .rot90) := by
  constructor
  · decide
  · intro fresh s
    rfl

/-- C3: `clear_full_rows` violates the claimed occupied-cell count
invariant.  On the grid with rows 0 and 1 full and one block at (0, 22)
(21 occupied cells, 2 full rows) the claim predicts 21 - 2*10 = 1
occupied cell afterwards, but the code leaves 2: the block's row is
copied down to row 20 yet its stale original at row 22 is never cleared
or overwritten. -/
theorem c3_clear_full_rows_stale_top_row :
    countOccupied c3Grid = 21 ∧
    ((widths c3Grid).filter (fun w => w = GRID_COLUMNS)).length = 2 ∧
    countOccupied (clearFullRows c3State).grid = 2 ∧
    gridGet (clearFullRows c3State).grid 0 20 = .I ∧
    gridGet (clearFullRows c3State).grid 0 22 = .I := by
  decide

/-- C5: a state reachable from a fresh game by public operations in which
the active piece overlaps an occupied grid cell while the game is not
over: after the deferred line clear of `on_update`, the S-piece overhang
at (2, 2) is shifted down onto the tucked active T piece's cell (2, 1). -/
theorem c5_overlap_after_clear_reachable :
    c5Final.gameover = false ∧
    (2, 1) ∈ pieceAbsCells c5Final.activePiece ∧
    ¬ gridGet c5Final.grid 2 1 = PieceKind.none := by
  decide

/-- Source `freeze_piece` never clears the game-over flag. -/
lemma freezePiece_gameover (fresh : List PieceKind) (s : GameState)
    (h : s.gameover = true) : (freezePiece fresh s).gameover = true := by
  unfold freezePiece
  dsimp only
  split
  · rfl
  · split
    · rfl
    · exact h

/-- The kick loop never touches the game-over flag. -/
lemma kickLoop_gameover (rot : Rotation) :
    ∀ (l : List (Int × Int)) (s : GameState), (kickLoop s rot l).gameover = s.gameover := by
  intro l
  induction l with
  | nil => intro s; rfl
  | cons o rest ih =>
    intro s
    unfold kickLoop
    split
    · rfl
    · exact ih s

/-- Source `try_rotate` never touches the game-over flag. -/
lemma tryRotate_gameover (s : GameState) (rot : Rotation) :
    (tryRotate s rot).gameover = s.gameover := by
  unfold tryRotate
  split
  · rfl
  · split
    · rfl
    · exact kickLoop_gameover rot _ s

/-- C6 (amended): no public call ever clears the game-over flag.  (The
original claim — that such calls are complete no-ops — is refuted by
`c6_not_noop_after_gameover`.) -/
theorem c6_gameover_persists (s : GameState) (op : Op)
    (h : s.gameover = true) : (applyOp s op).gameover = true := by
  cases op with
  | gravity fresh =>
    show (applyGravity fresh s).gameover = true
    unfold applyGravity
    split
    · exact freezePiece_gameover fresh s h
    · exact h
  | update => exact h
  | button fresh b =>
    cases b with
    | quit => rfl
    | moveDown =>
      show (tryMove s .down).gameover = true
      unfold tryMove
      split
      · exact h
      · exact h
    | moveLeft =>
      show (tryMove s .left).gameover = true
      unfold tryMove
      split
      · exact h
      · exact h
    | moveRight =>
      show (tryMove s .right).gameover = true
      unfold tryMove
      split
      · exact h
      · exact h
    | drop => exact freezePiece_gameover fresh _ h
    | rotateClockwise => exact (tryRotate_gameover s .rot90).trans h

/-- C6 counterexample: with the game-over flag set (here by pressing
Quit in the fresh game), `apply_gravity` is not a no-op — it still moves
the active piece down, changing the state. -/
theorem c6_not_noop_after_gameover :
    c6State.gameover = true ∧ ¬ applyGravity allKinds c6State = c6State := by
  decide

/-- C6 witness: the persistence theorem applied to the concrete
quit-state and an `on_update` call. -/
theorem c6_witness :
    c6State.gameover = true ∧ (applyOp c6State Op.update).gameover = true :=
  ⟨by decide, c6_gameover_persists c6State Op.update (by decide)⟩

/-- The kick table always has an arm for a +90-degree transition. -/
lemma offsetList_rot90_isSome (k : PieceKind) (r : Rotation) :
    (offsetList k r (radd r .rot90)).isSome = true := by
  revert k r
  decide

/-- When the rotated shape fits at the unchanged position, `try_rotate`
commits the rotation there. -/
lemma tryRotate_valid0 (s : GameState)
    (h : isValidRotation s .rot90 (0, 0) = true) :
    tryRotate s .rot90 = { s with activePiece := pieceRotate s.activePiece .rot90 } := by
  obtain ⟨l, hl⟩ := Option.isSome_iff_exists.mp
    (offsetList_rot90_isSome s.activePiece.kind s.activePiece.rotation)
  unfold tryRotate
  rw [hl]
  simp only [h, if_true]

/-- Four +90-degree rotation-state additions return to the start. -/
lemma radd_four_rot90 (r : Rotation) :
    radd (radd (radd (radd r .rot90) .rot90) .rot90) .rot90 = r := by
  revert r
  decide

/-- Four cached-map rotations restore a piece whose dimensions agree with
its cached map for its current rotation state. -/
lemma pieceRotate_four (p : Piece)
    (hwf : p.pieceDimensions = PieceDimensions.new (p.rotatedPieces.getD p.rotation.toNat [])) :
    pieceRotate (pieceRotate (pieceRotate (pieceRotate p .rot90) .rot90) .rot90) .rot90 = p := by
  obtain ⟨k, d, r, rps, pos⟩ := p
  simp only [pieceRotate]
  rw [radd_four_rot90]
  simp only at hwf
  rw [← hwf]

/-- C9: rotation addition is closed (the `try_from(..rem_euclid(4))`
unwrap never fails), and four consecutive clockwise `try_rotate` calls
that each succeed at the zero kick offset return the game state — in
particular the piece's absolute cells and rotation state — to exactly
its original value. -/
theorem c9_rotation_cycle :
    (∀ a b : Rotation,
      (Rotation.tryFrom (Int.emod (a.toInt + b.toInt) 4)).isSome = true) ∧
    (∀ s : GameState,
      s.activePiece.pieceDimensions =
        PieceDimensions.new (s.activePiece.rotatedPieces.getD s.activePiece.rotation.toNat []) →
      isValidRotation s .rot90 (0, 0) = true →
      isValidRotation (tryRotate s .rot90) .rot90 (0, 0) = true →
      isValidRotation (tryRotate (tryRotate s .rot90) .rot90) .rot90 (0, 0) = true →
      isValidRotation (tryRotate (tryRotate (tryRotate s .rot90) .rot90) .rot90) .rot90 (0, 0) = true →
      tryRotate (tryRotate (tryRotate (tryRotate s .rot90) .rot90) .rot90) .rot90 = s) := by
  constructor
  · decide
  · intro s hwf h0 h1 h2 h3
    rw [tryRotate_valid0 s h0] at h1 h2 h3 ⊢
    rw [tryRotate_valid0 _ h1] at h2 h3 ⊢
    rw [tryRotate_valid0 _ h2] at h3 ⊢
    rw [tryRotate_valid0 _ h3]
    exact congrArg (fun ap => { s with activePiece := ap }) (pieceRotate_four s.activePiece hwf)

/-- C9 witness: the cycle theorem applied to the fresh game with a T
piece on the empty grid. -/
theorem c9_witness :
    isValidRotation (initState .T allKinds allKinds) .rot90 (0, 0) = true ∧
    tryRotate (tryRotate (tryRotate (tryRotate
      (initState .T allKinds allKinds) .rot90) .rot90) .rot90) .rot90 =
      initState .T allKinds allKinds :=
  ⟨by decide,
   c9_rotation_cycle.2 (initState .T allKinds allKinds)
     (by decide) (by decide) (by decide) (by decide) (by decide)⟩

/-- If no offset in the list is valid, the kick loop leaves the state
unchanged. -/
lemma kickLoop_of_find_none (s : GameState) (rot : Rotation) :
    ∀ l : List (Int × Int),
      l.find? (fun o => isValidRotation s rot o) = Option.none → kickLoop s rot l = s := by
  intro l
  induction l with
  | nil => intro _; rfl
  | cons a rest ih =>
    intro hf
    rw [List.find?_cons] at hf
    unfold kickLoop
    cases ha : isValidRotation s rot a with
    | true => rw [ha] at hf; exact absurd hf (by simp)
    | false =>
      rw [ha] at hf
      exact ih hf

/-- The kick loop commits exactly the first valid offset of the list. -/
lemma kickLoop_of_find_some (s : GameState) (rot : Rotation) :
    ∀ (l : List (Int × Int)) (o : Int × Int),
      l.find? (fun o => isValidRotation s rot o) = some o →
      kickLoop s rot l = applyRot s rot o := by
  intro l
  induction l with
  | nil => intro o hf; exact absurd hf (by simp)
  | cons a rest ih =>
    intro o hf
    rw [List.find?_cons] at hf
    unfold kickLoop
    cases ha : isValidRotation s rot a with
    | true =>
      rw [ha] at hf
      simp only [if_true] at hf
      rw [← Option.some.inj hf]
      exact if_pos rfl
    | false =>
      rw [ha] at hf
      exact ih o hf

/-- C1: `try_rotate` with the clockwise delta first tests the rotated
shape at the zero offset and commits the rotation in place if it fits;
otherwise the kick-offset table entry for the transition is consulted
and the first offset of the list (in table order) whose rotated cells
are all in bounds and unoccupied commits both the shift and the
rotation; if none is valid the state is unchanged.  `List.find?` returns
the first list element satisfying the predicate, so the tie-break order
is the table order. -/
theorem c1_tryRotate_kick_order (s : GameState) :
    ∃ l, offsetList s.activePiece.kind s.activePiece.rotation
        (radd s.activePiece.rotation .rot90) = some l ∧
      (isValidRotation s .rot90 (0, 0) = true →
        tryRotate s .rot90 = { s with activePiece := pieceRotate s.activePiece .rot90 }) ∧
      (isValidRotation s .rot90 (0, 0) = false →
        (l.find? (fun o => isValidRotation s .rot90 o) = Option.none →
          tryRotate s .rot90 = s) ∧
        (∀ o, l.find? (fun o => isValidRotation s .rot90 o) = some o →
          isValidRotation s .rot90 o = true ∧ o ∈ l ∧
          tryRotate s .rot90 = applyRot s .rot90 o)) := by
  obtain ⟨l, hl⟩ := Option.isSome_iff_exists.mp
    (offsetList_rot90_isSome s.activePiece.kind s.activePiece.rotation)
  refine ⟨l, hl, fun h => tryRotate_valid0 s h, fun h0 => ⟨?_, ?_⟩⟩
  · intro hf
    unfold tryRotate
    rw [hl]
    simp only [h0, if_false]
    exact kickLoop_of_find_none s .rot90 l hf
  · intro o hf
    refine ⟨List.find?_some hf, List.mem_of_find?_eq_some hf, ?_⟩
    unfold tryRotate
    rw [hl]
    simp only [h0, if_false]
    exact kickLoop_of_find_some s .rot90 l o hf

/-- C1 witness: the long bar at spawn cannot rotate at the zero offset
(its rotated column pokes above the grid), the first two table offsets
also fail, and the third, (-2, -1), is the first valid one; the theorem
yields exactly that commit. -/
theorem c1_witness :
    isValidRotation (initState .I allKinds allKinds) .rot90 (0, 0) = false ∧
    tryRotate (initState .I allKinds allKinds) .rot90 =
      applyRot (initState .I allKinds allKinds) .rot90 (-2, -1) := by
  refine ⟨by decide, ?_⟩
  obtain ⟨l, hl, _, hkick⟩ := c1_tryRotate_kick_order (initState .I allKinds allKinds)
  have hl' : l = [(-2, 0), (1, 0), (-2, -1), (1, 2)] := by
    have h2 : some l = some [(-2, 0), (1, 0), (-2, -1), (1, 2)] := by
      rw [← hl]
      decide
    exact Option.some.inj h2
  subst hl'
  exact ((hkick (by decide)).2 (-2, -1) (by decide)).2.2

/-- Minimum folds only ever shrink below the seed. -/
lemma foldl_min_le_seed : ∀ (l : List Int) (a : Int), l.foldl min a ≤ a := by
  intro l
  induction l with
  | nil => intro a; exact le_refl a
  | cons b rest ih =>
    intro a
    exact le_trans (ih (min a b)) (min_le_left a b)

/-- A minimum fold is bounded by every list element. -/
lemma foldl_min_le_mem : ∀ (l : List Int) (a x : Int), x ∈ l → l.foldl min a ≤ x := by
  intro l
  induction l with
  | nil => intro a x hx; exact absurd hx (by simp)
  | cons b rest ih =>
    intro a x hx
    rcases List.mem_cons.mp hx with h | h
    · subst h
      exact le_trans (foldl_min_le_seed rest (min a x)) (min_le_right a x)
    · exact ih (min a b) x h

/-- A minimum fold returns the seed or a list element. -/
lemma foldl_min_mem : ∀ (l : List Int) (a : Int), l.foldl min a = a ∨ l.foldl min a ∈ l := by
  intro l
  induction l with
  | nil => intro a; exact Or.inl rfl
  | cons b rest ih =>
    intro a
    rcases ih (min a b) with h | h
    · rcases min_cases a b with ⟨hm, _⟩ | ⟨hm, _⟩
      · exact Or.inl (by rw [List.foldl_cons, h, hm])
      · exact Or.inr (by rw [List.foldl_cons, h, hm]; exact List.mem_cons_self b rest)
    · exact Or.inr (List.mem_cons_of_mem b h)

/-- Source `List.min?` of a nonempty list is a member and a lower bound. -/
lemma min?_is_min (l : List Int) (m : Int) (h : l.min? = some m) :
    m ∈ l ∧ ∀ x ∈ l, m ≤ x := by
  cases l with
  | nil => exact absurd h (by simp)
  | cons a rest =>
    have hm : m = rest.foldl min a := by
      have : some (rest.foldl min a) = some m := h
      exact (Option.some.inj this).symm
    subst hm
    constructor
    · rcases foldl_min_mem rest a with h1 | h1
      · rw [h1]; exact List.mem_cons_self a rest
      · exact List.mem_cons_of_mem a h1
    · intro x hx
      rcases List.mem_cons.mp hx with h1 | h1
      · rw [h1]; exact foldl_min_le_seed rest a
      · exact foldl_min_le_mem rest a x h1

/-- C2: whenever at least one column of the active piece has its absolute
x on the grid, `distance_to_drop` is the minimum of the per-column
clearances `skirt[w] + pieceY - heights(skirt[w] + pieceY)[x + w + xmin]`
over exactly the in-bounds columns: it equals the clearance of some such
column and is a lower bound for all of them.  Off-grid columns are
filtered out rather than causing an error. -/
theorem c2_distance_to_drop_min (s : GameState)
    (h : ∃ w, w < s.activePiece.pieceDimensions.width.toNat ∧ colInBounds s w = true) :
    (∃ w, w < s.activePiece.pieceDimensions.width.toNat ∧ colInBounds s w = true ∧
      distanceToDrop s = colClearance s w) ∧
    (∀ w, w < s.activePiece.pieceDimensions.width.toNat → colInBounds s w = true →
      distanceToDrop s ≤ colClearance s w) := by
  obtain ⟨w0, hw0, hb0⟩ := h
  have hmem0 : colClearance s w0 ∈ clearances s := by
    unfold clearances
    exact List.mem_map_of_mem _ (List.mem_filter.mpr ⟨List.mem_range.mpr hw0, hb0⟩)
  obtain ⟨m, hm⟩ : ∃ m, (clearances s).min? = some m := by
    cases hcl : clearances s with
    | nil => rw [hcl] at hmem0; exact absurd hmem0 (by simp)
    | cons a rest => exact ⟨rest.foldl min a, rfl⟩
  have hd : distanceToDrop s = m := by
    unfold distanceToDrop
    rw [hm]
    rfl
  obtain ⟨hmem, hbound⟩ := min?_is_min (clearances s) m hm
  constructor
  · obtain ⟨w, hwf, hwc⟩ := List.mem_map.mp hmem
    obtain ⟨hwr, hwb⟩ := List.mem_filter.mp hwf
    exact ⟨w, List.mem_range.mp hwr, hwb, by rw [hd, hwc]⟩
  · intro w hw hb
    have : colClearance s w ∈ clearances s := by
      unfold clearances
      exact List.mem_map_of_mem _ (List.mem_filter.mpr ⟨List.mem_range.mpr hw, hb⟩)
    rw [hd]
    exact hbound _ this

/-- C2 witness: the minimum characterization applied to the fresh game
with the long bar at spawn (all four columns in bounds, clearance 22). -/
theorem c2_witness :
    (∃ w, w < (initState .I allKinds allKinds).activePiece.pieceDimensions.width.toNat ∧
      colInBounds (initState .I allKinds allKinds) w = true) ∧
    ((∃ w, w < (initState .I allKinds allKinds).activePiece.pieceDimensions.width.toNat ∧
      colInBounds (initState .I allKinds allKinds) w = true ∧
      distanceToDrop (initState .I allKinds allKinds) =
        colClearance (initState .I allKinds allKinds) w) ∧
    (∀ w, w < (initState .I allKinds allKinds).activePiece.pieceDimensions.width.toNat →
      colInBounds (initState .I allKinds allKinds) w = true →
      distanceToDrop (initState .I allKinds allKinds) ≤
        colClearance (initState .I allKinds allKinds) w)) := by
  have h : ∃ w, w < (initState .I allKinds allKinds).activePiece.pieceDimensions.width.toNat ∧
      colInBounds (initState .I allKinds allKinds) w = true := ⟨0, by decide, by decide⟩
  exact ⟨h, c2_distance_to_drop_min (initState .I allKinds allKinds) h⟩

/-- Source `Vec::pop` on a nonempty vector returns its last element and the
rest. -/
lemma popBack_concat (pre : List PieceKind) (a : PieceKind) :
    popBack (pre ++ [a]) = some (a, pre) := by
  unfold popBack
  rw [List.getLast?_concat, List.dropLast_concat]

/-- Unfolding one draw of a run. -/
lemma drawRun_succ (n : Nat) (fs : List (List PieceKind)) (cur next : List PieceKind) :
    drawRun (n + 1) fs cur next = (drawPiece (fs.headD []) cur next).1 ::
      drawRun n fs.tail (drawPiece (fs.headD []) cur next).2.1
        (drawPiece (fs.headD []) cur next).2.2 := rfl

/-- Draining a bag of `n` kinds yields them in reverse order (pops come
from the back). -/
lemma drawRun_full : ∀ (n : Nat) (fs : List (List PieceKind)) (cur next : List PieceKind),
    cur.length = n → drawRun n fs cur next = cur.reverse := by
  intro n
  induction n with
  | zero =>
    intro fs cur next hlen
    rw [List.length_eq_zero.mp hlen]
    rfl
  | succ n ih =>
    intro fs cur next hlen
    have hne : cur ≠ [] := by
      intro h
      rw [h] at hlen
      exact absurd hlen (by simp)
    obtain ⟨pre, b, hpb⟩ : ∃ pre b, cur = pre ++ [b] :=
      ⟨cur.dropLast, cur.getLast hne, (List.dropLast_append_getLast hne).symm⟩
    subst hpb
    have hpre : pre.length = n := by
      rw [List.length_append] at hlen
      simpa using hlen
    have h1 : drawPiece (fs.headD []) (pre ++ [b]) next = (b, pre, next) := by
      unfold drawPiece
      rw [popBack_concat]
    rw [drawRun_succ, h1]
    rw [ih fs.tail pre next hpre]
    simp [List.reverse_append]

/-- C7: drawing pops the last kind of the current bag; when the current
bag is empty the next bag is promoted, the freshly generated bag becomes
the new next bag, and the pop comes from the promoted bag; and the 7
spawns of a run starting at a bag boundary (current bag empty, next bag
a permutation of the 7 kinds) are exactly that bag reversed, hence
contain each of the 7 kinds exactly once. -/
theorem c7_bag_window :
    (∀ (fresh next : List PieceKind) (a : PieceKind) (pre : List PieceKind),
      drawPiece fresh (pre ++ [a]) next = (a, pre, next)) ∧
    (∀ (fresh : List PieceKind) (a : PieceKind) (pre : List PieceKind),
      drawPiece fresh [] (pre ++ [a]) = (a, pre, fresh)) ∧
    (∀ (next : List PieceKind) (fs : List (List PieceKind)),
      next.Perm allKinds →
      drawRun 7 fs [] next = next.reverse ∧
      ∀ k ∈ allKinds, (drawRun 7 fs [] next).count k = 1) := by
  refine ⟨?_, ?_, ?_⟩
  · intro fresh next a pre
    unfold drawPiece
    rw [popBack_concat]
  · intro fresh a pre
    unfold drawPiece
    rw [popBack_concat]
    rfl
  · intro next fs hperm
    have hlen : next.length = 7 := by rw [hperm.length_eq]; rfl
    have hne : next ≠ [] := by
      intro h
      rw [h] at hlen
      exact absurd hlen (by simp)
    obtain ⟨pre, b, hpb⟩ : ∃ pre b, next = pre ++ [b] :=
      ⟨next.dropLast, next.getLast hne, (List.dropLast_append_getLast hne).symm⟩
    subst hpb
    have hpre : pre.length = 6 := by
      rw [List.length_append] at hlen
      simpa using hlen
    have h1 : drawPiece (fs.headD []) [] (pre ++ [b]) = (b, pre, fs.headD []) := by
      unfold drawPiece
      rw [popBack_concat]
      rfl
    have hmain : drawRun 7 fs [] (pre ++ [b]) = (pre ++ [b]).reverse := by
      rw [drawRun_succ, h1]
      rw [drawRun_full 6 fs.tail pre (fs.headD []) hpre]
      simp [List.reverse_append]
    refine ⟨hmain, ?_⟩
    intro k hk
    rw [hmain, List.count_reverse, hperm.count_eq]
    have hall : ∀ k ∈ allKinds, allKinds.count k = 1 := by decide
    exact hall k hk

/-- C7 witness: the boundary-window theorem applied to the canonical
full bag. -/
theorem c7_witness :
    allKinds.Perm allKinds ∧ drawRun 7 [] [] allKinds = allKinds.reverse :=
  ⟨List.Perm.refl allKinds, (c7_bag_window.2.2 allKinds [] (List.Perm.refl allKinds)).1⟩

/-- Setting an in-range index and reading it back. -/
lemma getD_set_eq {α : Type} : ∀ (l : List α) (n : Nat) (a d : α),
    n < l.length → (l.set n a).getD n d = a := by
  intro l
  induction l with
  | nil => intro n a d h; exact absurd h (by simp)
  | cons b rest ih =>
    intro n a d h
    cases n with
    | zero => rfl
    | succ n => exact ih n a d (by simpa using h)

/-- Setting one index never changes reads at another index. -/
lemma getD_set_ne {α : Type} : ∀ (l : List α) (n m : Nat) (a d : α),
    n ≠ m → (l.set n a).getD m d = l.getD m d := by
  intro l
  induction l with
  | nil => intro n m a d _; rfl
  | cons b rest ih =>
    intro n m a d hnm
    cases n with
    | zero =>
      cases m with
      | zero => exact absurd rfl hnm
      | succ m => rfl
    | succ n =>
      cases m with
      | zero => rfl
      | succ m => exact ih n m a d (fun h => hnm (by rw [h]))

/-- The bounds check as arithmetic facts. -/
lemma isWithinBounds_iff (x y : Int) :
    isWithinBounds x y = true ↔ 0 ≤ x ∧ x < 10 ∧ 0 ≤ y ∧ y < 24 := by
  unfold isWithinBounds GRID_COLUMNS GRID_ROWS
  simp [Bool.and_eq_true, decide_eq_true_iff, and_assoc]

/-- Source `set_cell` keeps the 24-by-10 shape. -/
lemma wfGrid_setCell (g : Grid) (x y : Int) (k : PieceKind)
    (hwf : wfGrid g) : wfGrid (setCell g x y k) := by
  unfold setCell
  by_cases hb : isWithinBounds x y = true
  · rw [if_pos hb]
    refine ⟨by simpa using hwf.1, ?_⟩
    intro r hr
    rcases List.mem_or_eq_of_mem_set hr with h | h
    · exact hwf.2 r h
    · obtain ⟨hx0, hx1, hy0, hy1⟩ := (isWithinBounds_iff x y).mp hb
      have hy : y.toNat < g.gridMap.length := by
        rw [hwf.1]
        unfold gridRowsN
        omega
      rw [h, List.length_set]
      rw [List.getD_eq_getElem _ _ hy]
      exact hwf.2 _ (List.getElem_mem hy)
  · rw [if_neg hb]
    exact hwf

/-- Reading back a just-written in-bounds cell. -/
lemma gridGet_setCell_same (g : Grid) (x y : Int) (k : PieceKind)
    (hwf : wfGrid g) (hb : isWithinBounds x y = true) :
    gridGet (setCell g x y k) x y = k := by
  obtain ⟨hx0, hx1, hy0, hy1⟩ := (isWithinBounds_iff x y).mp hb
  have hy : y.toNat < g.gridMap.length := by
    rw [hwf.1]
    unfold gridRowsN
    omega
  have hrow : (g.gridMap.getD y.toNat []).length = gridColumnsN := by
    rw [List.getD_eq_getElem _ _ hy]
    exact hwf.2 _ (List.getElem_mem hy)
  have hx : x.toNat < (g.gridMap.getD y.toNat []).length := by
    rw [hrow]
    unfold gridColumnsN
    omega
  unfold setCell gridGet
  rw [if_pos hb, if_pos hb]
  rw [getD_set_eq _ _ _ _ hy]
  rw [getD_set_eq _ _ _ _ hx]

/-- Writing one cell leaves every other cell's value unchanged. -/
lemma gridGet_setCell_other (g : Grid) (x y : Int) (k : PieceKind)
    (x' y' : Int) (hne : ¬(x' = x ∧ y' = y)) :
    gridGet (setCell g x y k) x' y' = gridGet g x' y' := by
  unfold setCell
  by_cases hb : isWithinBounds x y = true
  · rw [if_pos hb]
    by_cases hb' : isWithinBounds x' y' = true
    · obtain ⟨hx0, hx1, hy0, hy1⟩ := (isWithinBounds_iff x y).mp hb
      obtain ⟨hx0', hx1', hy0', hy1'⟩ := (isWithinBounds_iff x' y').mp hb'
      unfold gridGet
      rw [if_pos hb', if_pos hb']
      by_cases hyy : y' = y
      · have hxx : x'.toNat ≠ x.toNat := by
          have : x' ≠ x := fun h => hne ⟨h, hyy⟩
          omega
        subst hyy
        by_cases hyl : y'.toNat < g.gridMap.length
        · rw [getD_set_eq _ _ _ _ hyl]
          rw [getD_set_ne _ _ _ _ _ (fun h => hxx h.symm)]
        · have hL : g.gridMap.length ≤ y'.toNat := Nat.le_of_not_lt hyl
          have h1 : (g.gridMap.set y'.toNat
              ((g.gridMap.getD y'.toNat []).set x.toNat k)).getD y'.toNat ([] : List PieceKind) = [] :=
            List.getD_eq_default _ _ (by simpa [List.length_set] using hL)
          have h2 : g.gridMap.getD y'.toNat ([] : List PieceKind) = [] :=
            List.getD_eq_default _ _ hL
          rw [h1, h2]
      · have hyn : y.toNat ≠ y'.toNat := by omega
        rw [getD_set_ne _ _ _ _ _ hyn]
    · unfold gridGet
      rw [if_neg hb', if_neg hb']
  · rw [if_neg hb]

/-- Folding cell writes over an avoided position changes nothing there. -/
lemma setFold_not_mem (k : PieceKind) :
    ∀ (L : List (Int × Int)) (g : Grid) (x y : Int), (x, y) ∉ L →
      gridGet (L.foldl (fun g' c => setCell g' c.1 c.2 k) g) x y = gridGet g x y := by
  intro L
  induction L with
  | nil => intro g x y _; rfl
  | cons a rest ih =>
    intro g x y hn
    have hna : (x, y) ≠ a := fun h => hn (h ▸ List.mem_cons_self a rest)
    have hnr : (x, y) ∉ rest := fun h => hn (List.mem_cons_of_mem a h)
    rw [List.foldl_cons, ih _ x y hnr]
    exact gridGet_setCell_other g a.1 a.2 k x y (fun h => hna (by
      rw [Prod.ext_iff]
      exact ⟨h.1, h.2⟩))

/-- Folding in-bounds cell writes of one kind makes every written cell
read back that kind. -/
lemma setFold_mem (k : PieceKind) :
    ∀ (L : List (Int × Int)) (g : Grid) (x y : Int), wfGrid g →
      (∀ c ∈ L, isWithinBounds c.1 c.2 = true) → (x, y) ∈ L →
      gridGet (L.foldl (fun g' c => setCell g' c.1 c.2 k) g) x y = k := by
  intro L
  induction L with
  | nil => intro g x y _ _ hm; exact absurd hm (by simp)
  | cons a rest ih =>
    intro g x y hwf hbs hm
    rw [List.foldl_cons]
    by_cases hr : (x, y) ∈ rest
    · exact ih _ x y (wfGrid_setCell g a.1 a.2 k hwf) (fun c hc => hbs c (List.mem_cons_of_mem a hc)) hr
    · have ha : (x, y) = a := by
        rcases List.mem_cons.mp hm with h | h
        · exact h
        · exact absurd h hr
      rw [setFold_not_mem k rest _ x y hr]
      have hb : isWithinBounds x y = true := by
        have := hbs a (List.mem_cons_self a rest)
        rw [← ha] at this
        exact this
      have := gridGet_setCell_same g x y k hwf hb
      rw [← ha]
      exact this

/-- Source `freeze_piece`'s write loop, rephrased over the absolute cells. -/
lemma writePiece_eq_fold (g : Grid) (p : Piece) :
    writePiece g p = (pieceAbsCells p).foldl (fun g' c => setCell g' c.1 c.2 p.kind) g := by
  unfold writePiece pieceAbsCells
  rw [List.foldl_map]

/-- C4: with drop distance 0, `freeze_piece` sets game over and changes
nothing else when the piece's lowest occupied row is at or above the
visible region; otherwise it writes exactly the piece's 4 absolute cells
(all other cells untouched), draws the next kind from the bag pair, and
then either activates the spawned piece, or — if the spawn overlaps the
updated terrain — sets game over and leaves the old piece in place. -/
theorem c4_freeze_piece_spec (fresh : List PieceKind) (s : GameState)
    (hdist : distanceToDrop s = 0) :
    (GRID_VISIBLE_ROWS ≤ pieceYMin s.activePiece →
      freezePiece fresh s = { s with gameover := true }) ∧
    (pieceYMin s.activePiece < GRID_VISIBLE_ROWS →
      (freezePiece fresh s).currentPieceBag =
        (drawPiece fresh s.currentPieceBag s.nextPieceBag).2.1 ∧
      (freezePiece fresh s).nextPieceBag =
        (drawPiece fresh s.currentPieceBag s.nextPieceBag).2.2 ∧
      (freezePiece fresh s).grid = writePiece s.grid s.activePiece ∧
      (wfGrid s.grid →
        (∀ c ∈ pieceAbsCells s.activePiece, isWithinBounds c.1 c.2 = true) →
        ∀ c ∈ pieceAbsCells s.activePiece,
          gridGet (freezePiece fresh s).grid c.1 c.2 = s.activePiece.kind) ∧
      (∀ x y : Int, (x, y) ∉ pieceAbsCells s.activePiece →
        gridGet (freezePiece fresh s).grid x y = gridGet s.grid x y) ∧
      (if gridOverlaps (writePiece s.grid s.activePiece)
          (pieceNew (drawPiece fresh s.currentPieceBag s.nextPieceBag).1) = true
       then (freezePiece fresh s).gameover = true ∧
         (freezePiece fresh s).activePiece = s.activePiece
       else (freezePiece fresh s).gameover = s.gameover ∧
         (freezePiece fresh s).activePiece =
           pieceNew (drawPiece fresh s.currentPieceBag s.nextPieceBag).1)) := by
  constructor
  · intro h
    unfold freezePiece
    rw [if_pos h]
  · intro h
    have hnot : ¬ GRID_VISIBLE_ROWS ≤ pieceYMin s.activePiece := by omega
    by_cases hov : gridOverlaps (writePiece s.grid s.activePiece)
        (pieceNew (drawPiece fresh s.currentPieceBag s.nextPieceBag).1) = true
    · have hfs : freezePiece fresh s =
          { grid := writePiece s.grid s.activePiece,
            activePiece := s.activePiece,
            gameover := true,
            currentPieceBag := (drawPiece fresh s.currentPieceBag s.nextPieceBag).2.1,
            nextPieceBag := (drawPiece fresh s.currentPieceBag s.nextPieceBag).2.2 } := by
        unfold freezePiece
        rw [if_neg hnot]
        dsimp only
        rw [if_pos hov]
      rw [hfs]
      refine ⟨rfl, rfl, rfl, ?_, ?_, ?_⟩
      · intro hwf hbs c hc
        rw [writePiece_eq_fold]
        exact setFold_mem s.activePiece.kind _ s.grid c.1 c.2 hwf hbs hc
      · intro x y hn
        rw [writePiece_eq_fold]
        exact setFold_not_mem s.activePiece.kind _ s.grid x y hn
      · rw [if_pos hov]
        exact ⟨rfl, rfl⟩
    · have hfs : freezePiece fresh s =
          { grid := writePiece s.grid s.activePiece,
            activePiece := pieceNew (drawPiece fresh s.currentPieceBag s.nextPieceBag).1,
            gameover := s.gameover,
            currentPieceBag := (drawPiece fresh s.currentPieceBag s.nextPieceBag).2.1,
            nextPieceBag := (drawPiece fresh s.currentPieceBag s.nextPieceBag).2.2 } := by
        unfold freezePiece
        rw [if_neg hnot]
        dsimp only
        rw [if_neg hov]
      rw [hfs]
      refine ⟨rfl, rfl, rfl, ?_, ?_, ?_⟩
      · intro hwf hbs c hc
        rw [writePiece_eq_fold]
        exact setFold_mem s.activePiece.kind _ s.grid c.1 c.2 hwf hbs hc
      · intro x y hn
        rw [writePiece_eq_fold]
        exact setFold_not_mem s.activePiece.kind _ s.grid x y hn
      · rw [if_neg hov]
        exact ⟨rfl, rfl⟩

/-- The long bar lowered to the floor of the empty grid: drop distance 0,
about to lock into row 0. -/
def c4State : GameState :=
  { initState .I allKinds allKinds with
    activePiece := { (initState .I allKinds allKinds).activePiece with
      position := { x := 3, y := -1 } } }

/-- C4 witness: locking the floored long bar writes its first cell. -/
theorem c4_witness :
    distanceToDrop c4State = 0 ∧
    gridGet (freezePiece allKinds c4State).grid 3 0 = c4State.activePiece.kind := by
  refine ⟨by decide, ?_⟩
  have h := (c4_freeze_piece_spec allKinds c4State (by decide)).2 (by decide)
  exact h.2.2.2.1 (by decide) (by decide) (3, 0) (by decide)

/-- The row-maximum fold is bounded by any common bound. -/
lemma foldMax_le : ∀ (L : List Nat) (v c : Int), v ≤ c →
    (∀ r ∈ L, (r : Int) + 1 ≤ c) →
    L.foldr (fun (r : Nat) (acc : Int) => max ((r : Int) + 1) acc) v ≤ c := by
  intro L
  induction L with
  | nil => intro v c hv _; exact hv
  | cons a rest ih =>
    intro v c hv h
    rw [List.foldr_cons]
    exact max_le (h a (List.mem_cons_self a rest))
      (ih v c hv (fun r hr => h r (List.mem_cons_of_mem a hr)))

/-- The row-maximum fold dominates its seed. -/
lemma le_foldMax : ∀ (L : List Nat) (v : Int),
    v ≤ L.foldr (fun (r : Nat) (acc : Int) => max ((r : Int) + 1) acc) v := by
  intro L
  induction L with
  | nil => intro v; exact le_refl v
  | cons a rest ih =>
    intro v
    rw [List.foldr_cons]
    exact le_trans (ih v) (le_max_right _ _)

/-- The row-maximum fold dominates every listed row. -/
lemma foldMax_mem_le : ∀ (L : List Nat) (v : Int) (r : Nat), r ∈ L →
    (r : Int) + 1 ≤ L.foldr (fun (r : Nat) (acc : Int) => max ((r : Int) + 1) acc) v := by
  intro L
  induction L with
  | nil => intro v r hr; exact absurd hr (by simp)
  | cons a rest ih =>
    intro v r hr
    rw [List.foldr_cons]
    rcases List.mem_cons.mp hr with h | h
    · rw [h]; exact le_max_left _ _
    · exact le_trans (ih v r h) (le_max_right _ _)

/-- The column scan never returns a negative value. -/
lemma heightsCol_nonneg (g : Grid) (col : Nat) :
    ∀ n, 0 ≤ heightsCol g col n := by
  intro n
  induction n with
  | zero => exact le_refl 0
  | succ n ih =>
    unfold heightsCol
    by_cases hocc : gridGet g (col : Int) (n : Int) = PieceKind.none
    · rw [if_pos hocc]; exact ih
    · rw [if_neg hocc]; omega

/-- Every occupied row below the scan start bounds the scan result. -/
lemma heightsCol_ge (g : Grid) (col : Nat) :
    ∀ (n r : Nat), r < n → ¬ gridGet g (col : Int) (r : Int) = PieceKind.none →
    (r : Int) + 1 ≤ heightsCol g col n := by
  intro n
  induction n with
  | zero => intro r hr _; exact absurd hr (by omega)
  | succ n ih =>
    intro r hr hocc
    unfold heightsCol
    by_cases hn : gridGet g (col : Int) (n : Int) = PieceKind.none
    · rw [if_pos hn]
      have hrn : r < n := by
        rcases Nat.lt_succ_iff_lt_or_eq.mp hr with h | h
        · exact h
        · rw [h] at hocc; exact absurd hn hocc
      exact ih r hrn hocc
    · rw [if_neg hn]
      have : r ≤ n := by omega
      omega

/-- The column scan is zero or one past some occupied scanned row. -/
lemma heightsCol_cases (g : Grid) (col : Nat) :
    ∀ n : Nat, heightsCol g col n = 0 ∨
      ∃ r : Nat, r < n ∧ ¬ gridGet g (col : Int) (r : Int) = PieceKind.none ∧
        heightsCol g col n = (r : Int) + 1 := by
  intro n
  induction n with
  | zero => exact Or.inl rfl
  | succ n ih =>
    unfold heightsCol
    by_cases hn : gridGet g (col : Int) (n : Int) = PieceKind.none
    · rw [if_pos hn]
      rcases ih with h | ⟨r, hr, hocc, heq⟩
      · exact Or.inl h
      · exact Or.inr ⟨r, by omega, hocc, heq⟩
    · rw [if_neg hn]
      exact Or.inr ⟨n, by omega, hn, rfl⟩

/-- C8 (amended): `heights(belowRow)[col]` is one past the highest
occupied cell of the column strictly below `belowRow` (and within the
grid), 0 when the column is empty there — i.e. the scanning code equals
the maximum-based description with a strict bound.  (The claim's
inclusive "at or below" reading is refuted by `c8_at_or_below_false`.) -/
theorem c8_heights_strictly_below (g : Grid) (below : Int) (col : Nat) :
    (heights g below).getD col 0 = heightsSpecBelow g below col := by
  by_cases hcol : col < gridColumnsN
  · have hlhs : (heights g below).getD col 0 =
        heightsCol g col (min below GRID_ROWS).toNat := by
      unfold heights
      rw [List.getD_eq_getElem _ _ (by simpa using hcol)]
      rw [List.getElem_map, List.getElem_range]
    rw [hlhs]
    unfold heightsSpecBelow
    have hn24 : (min below GRID_ROWS).toNat ≤ gridRowsN := by
      unfold GRID_ROWS gridRowsN
      omega
    apply le_antisymm
    · rcases heightsCol_cases g col (min below GRID_ROWS).toNat with h0 | ⟨r, hr, hocc, heq⟩
      · rw [h0]
        exact le_foldMax _ 0
      · rw [heq]
        apply foldMax_mem_le
        refine List.mem_filter.mpr ⟨List.mem_range.mpr (by omega), ?_⟩
        rw [Bool.and_eq_true, decide_eq_true_iff, decide_eq_true_iff]
        refine ⟨?_, hocc⟩
        have : r < (min below GRID_ROWS).toNat := hr
        unfold GRID_ROWS at *
        omega
    · apply foldMax_le _ 0 _ (heightsCol_nonneg g col _)
      intro r hr
      obtain ⟨hrange, hpred⟩ := List.mem_filter.mp hr
      rw [Bool.and_eq_true, decide_eq_true_iff, decide_eq_true_iff] at hpred
      apply heightsCol_ge g col _ r _ hpred.2
      have hr24 : r < gridRowsN := List.mem_range.mp hrange
      unfold GRID_ROWS
      unfold gridRowsN at hr24
      omega
  · have hlhs : (heights g below).getD col 0 = 0 := by
      unfold heights
      exact List.getD_eq_default _ _ (by simpa using Nat.le_of_not_lt hcol)
    have hempty : ∀ r ∈ List.range gridRowsN,
        ¬ ((decide ((r : Int) < below) &&
          decide (¬ gridGet g (col : Int) (r : Int) = PieceKind.none)) = true) := by
      intro r _
      have hno : gridGet g (col : Int) (r : Int) = PieceKind.none := by
        unfold gridGet
        rw [if_neg]
        intro hb
        obtain ⟨_, hx1, _, _⟩ := (isWithinBounds_iff (col : Int) (r : Int)).mp hb
        unfold gridColumnsN at hcol
        omega
      simp [hno]
    rw [hlhs]
    unfold heightsSpecBelow
    rw [List.filter_eq_nil_iff.mpr hempty]
    rfl

/-- C8 counterexample: with a single block at (0, 5), `heights(5)[0]` is
0 (the scan looks strictly below row 5), while the claimed inclusive
"at or below row 5" reading would give 6. -/
theorem c8_at_or_below_false :
    ¬ (heights c8Grid 5).getD 0 0 = heightsAtOrBelow c8Grid 5 0 ∧
    (heights c8Grid 5).getD 0 0 = 0 ∧ heightsAtOrBelow c8Grid 5 0 = 6 := by
  decide

end Tetrs
